import Mathlib

/-
  Verification development for the FastAPI-LLM-Agent repository.

  Shallow embedding of the CLI core: the command-candidate extractor
  (src/cli/command_parser.py), the tool-call decoder and conversation
  session (src/cli/llm_client_wrapper.py), the approval gate and executor
  (src/cli/command_executor.py), persona configuration
  (src/cli/expert_modes.py), and the relevant parts of the interactive
  loop (src/cli/interactive_terminal.py).

  Text is modelled as `List Char` (Python strings are sequences of code
  points, so Python `len` agrees with `List.length`).  Regular-expression
  scans from the source are implemented as executable recursive scanners
  with the same matching semantics (leftmost, non-overlapping `finditer`,
  greedy/lazy quantifiers with backtracking where it matters).  Character
  classes such as `\w`, `isalpha`, `islower` are read at ASCII, which is
  the alphabet all commands and prompts in the repository use.
  External effects (the child process, the filesystem, interactive
  prompts) are passed in as explicit values.
-/

set_option maxRecDepth 100000

namespace Agent

/-! ## Basic Python-string utilities -/

/-- Backtick character (spelled via its code point). -/
def btick : Char := Char.ofNat 96

/-- Left brace character. -/
def lbrace : Char := Char.ofNat 123

/-- Right brace character. -/
def rbrace : Char := Char.ofNat 125

/-- Python `str.strip` whitespace class (also the regex `\s` class). -/
def isPyWS (c : Char) : Bool :=
  c == ' ' || c == '\t' || c == '\n' || c == '\r' || c == '\x0b' || c == '\x0c'

/-- Python `str.strip` on a character list. -/
def pyStripL (l : List Char) : List Char :=
  ((l.dropWhile isPyWS).reverse.dropWhile isPyWS).reverse

/-- Python `str.strip` on a string. -/
def pyStrip (s : String) : String :=
  String.mk (pyStripL s.toList)

/-- ASCII letter test (regex `[a-zA-Z]`, and `str.isalpha` at ASCII). -/
def isAsciiAlpha (c : Char) : Bool :=
  ('a' ≤ c && c ≤ 'z') || ('A' ≤ c && c ≤ 'Z')

/-- ASCII lowercase test (Python `str.islower` for command characters). -/
def isAsciiLower (c : Char) : Bool :=
  'a' ≤ c && c ≤ 'z'

/-- ASCII uppercase test (regex `[A-Z]`). -/
def isAsciiUpper (c : Char) : Bool :=
  'A' ≤ c && c ≤ 'Z'

/-- ASCII digit test (regex `[0-9]`, `\d`). -/
def isDigitCh (c : Char) : Bool :=
  '0' ≤ c && c ≤ '9'

/-- Regex `\w` class: `[a-zA-Z0-9_]`. -/
def isWordCh (c : Char) : Bool :=
  isAsciiAlpha c || isDigitCh c || c == '_'

/-- Python `str.lower` on a character list (ASCII case fold). -/
def lowerL (l : List Char) : List Char :=
  l.map Char.toLower

/-- Python `str.lower` on a string. -/
def lowerS (s : String) : String :=
  String.mk (lowerL s.toList)

/-- One step of Python `str.replace`: fuel-guarded scan replacing every
non-overlapping occurrence of `pat` (nonempty) by `repl`. -/
def replaceAllAux (pat repl : List Char) : Nat → List Char → List Char
  | 0, l => l
  | _ + 1, [] => []
  | fuel + 1, c :: rest =>
    if pat ≠ [] ∧ pat.isPrefixOf (c :: rest) then
      repl ++ replaceAllAux pat repl fuel ((c :: rest).drop pat.length)
    else
      c :: replaceAllAux pat repl fuel rest

/-- Python `str.replace` (all occurrences, left to right). -/
def replaceAll (s pat repl : String) : String :=
  String.mk (replaceAllAux pat.toList repl.toList (s.toList.length + 1) s.toList)

/-- Python `str.split()` (no argument): split on whitespace runs, dropping
empty pieces.  Fuel-guarded recursion. -/
def pySplitWsAux : Nat → List Char → List (List Char)
  | 0, _ => []
  | fuel + 1, l =>
    match l.dropWhile isPyWS with
    | [] => []
    | c :: rest =>
      ((c :: rest).takeWhile (fun c => ¬ isPyWS c)) ::
        pySplitWsAux fuel ((c :: rest).dropWhile (fun c => ¬ isPyWS c))

/-- Python `str.split()` on a character list. -/
def pySplitWs (l : List Char) : List (List Char) :=
  pySplitWsAux (l.length + 1) l

/-! ## Persona configuration (src/cli/expert_modes.py) -/

/-- `ExpertMode` enum. -/
inductive ExpertMode where
  | linux | python | devops | database | general
deriving DecidableEq, Repr

/-- `ResponseMode` enum. -/
inductive ResponseMode where
  | quick | full
deriving DecidableEq, Repr

/-- The slice of an `EXPERT_CONFIGS` entry the wrapper stores in
`self.config` (`get_expert_config` result). -/
structure ExpertCfg where
  temperature : Rat
  maxTokens : Nat
  name : String
  icon : String
deriving DecidableEq, Repr

/-- `EXPERT_CONFIGS[mode]["name"]`. -/
def expertConfigName : ExpertMode → String
  | .linux => "🐧 Linux Expert"
  | .python => "🐍 Python Expert"
  | .devops => "🚀 DevOps Expert"
  | .database => "🗄️  Database Expert"
  | .general => "💬 General Assistant"

/-- `EXPERT_CONFIGS[mode]["icon"]`. -/
def expertConfigIcon : ExpertMode → String
  | .linux => "🐧"
  | .python => "🐍"
  | .devops => "🚀"
  | .database => "🗄️"
  | .general => "💬"

/-- `EXPERT_CONFIGS[mode]["temperature"]`. -/
def expertConfigTemp : ExpertMode → Rat
  | .linux => 2 / 5
  | .python => 1 / 2
  | .devops => 2 / 5
  | .database => 2 / 5
  | .general => 7 / 10

/-- `EXPERT_CONFIGS[mode]["max_tokens_quick"]`. -/
def expertConfigTokQuick : ExpertMode → Nat
  | .linux => 400
  | .python => 500
  | .devops => 400
  | .database => 400
  | .general => 500

/-- `EXPERT_CONFIGS[mode]["max_tokens_full"]`. -/
def expertConfigTokFull : ExpertMode → Nat
  | .linux => 1500
  | .python => 2000
  | .devops => 1500
  | .database => 1500
  | .general => 2000

/-- `get_expert_config`. -/
def get_expert_config (m : ExpertMode) (rm : ResponseMode) : ExpertCfg :=
  { temperature := expertConfigTemp m
    maxTokens := match rm with
      | .quick => expertConfigTokQuick m
      | .full => expertConfigTokFull m
    name := expertConfigName m
    icon := expertConfigIcon m }

/-- `expert_prompts[mode]` from `get_system_prompt` (triple-quoted literal,
including its leading and trailing newlines). -/
def expertPromptText : ExpertMode → String
  | .linux => "\nLinux system expert. Answer with Linux/bash commands ONLY.\nNO Python/Java/PowerShell unless asked.\nFocus: shell scripting, system utilities, file operations.\n"
  | .python => "\nPython expert. Answer with Python code ONLY.\nNO bash/shell unless needed.\nFocus: Python 3.x, clean code, best practices.\n"
  | .devops => "\nDevOps expert. Focus on Docker, K8s, CI/CD, infrastructure.\nPrefer containers and automation over app code.\n"
  | .database => "\nDatabase expert. Provide SQL queries and DB solutions.\nFocus: queries, schema, optimization, indexes.\n"
  | .general => "\nGeneral AI assistant. Adapt to questions.\nProvide clear, accurate info.\n"

/-- `response_instruction` from `get_system_prompt`. -/
def responseInstruction : ResponseMode → String
  | .quick => "STYLE: Quick and concise. Get to the point. No long explanations."
  | .full => "STYLE: Detailed with examples and context when helpful."

/-- `base_instructions` literal from `get_system_prompt`. -/
def baseInstructions : String :=
  "\nWhen suggesting commands:\n- Wrap in backticks: `command`\n- Use code blocks for multi-line\n- Brief explanation only\n- Mention risks if critical\n"

/-- `expert_reminders[mode]` from `get_system_prompt`. -/
def expertReminder : ExpertMode → String
  | .linux => "⚠️ LINUX MODE: Use bash/shell commands only."
  | .python => "⚠️ PYTHON MODE: Use Python code only."
  | .devops => "⚠️ DEVOPS MODE: Focus on containers & infrastructure."
  | .database => "⚠️ DATABASE MODE: Use SQL queries."
  | .general => "GENERAL MODE: Adapt to context."

/-- `get_system_prompt`: the f-string combination, then `.strip()`. -/
def get_system_prompt (m : ExpertMode) (rm : ResponseMode) : String :=
  pyStrip (expertPromptText m ++ "\n" ++ responseInstruction rm ++ "\n" ++
    baseInstructions ++ "\n" ++ expertReminder m ++ "\n")

/-! ## Fenced-block scanning

Implements `re.finditer` for the two fence patterns in the source,
`r'```(?:bash|sh|shell)\s*\n(.*?)\n```'` (DOTALL, IGNORECASE) and
`r'```json\s*\n(.*?)\n```'` (DOTALL): at each scan position, three
backticks, one of the tags, then `\s*\n` (greedy with backtracking, so the
`\n` matched is the last newline of the whitespace run that still lets the
rest match), then the lazy body up to the first `"\n``` "` close. -/

/-- Three backticks at the head of the list. -/
def isTripleTick (cs : List Char) : Bool :=
  match cs with
  | a :: b :: c :: _ => a == btick && b == btick && c == btick
  | _ => false

/-- Lazy body match: split before the first occurrence of newline followed
by three backticks, returning the body and the text after the close. -/
def findClose : List Char → Option (List Char × List Char)
  | [] => none
  | c :: rest =>
    if c == '\n' && isTripleTick rest then some ([], rest.drop 3)
    else
      match findClose rest with
      | none => none
      | some (b, r) => some (c :: b, r)

/-- Candidate remainders after `\s*\n`, in the backtracking order of the
regex engine: the greedy `\s*` prefers consuming the most whitespace, so
remainders after later newlines of the leading whitespace run come first. -/
def wsSplits : List Char → List (List Char)
  | [] => []
  | c :: rest =>
    if isPyWS c then
      let deeper := wsSplits rest
      if c == '\n' then deeper ++ [rest] else deeper
    else []

/-- Consume a literal tag (given lowercase), optionally case-insensitively. -/
def stripTag (tag : List Char) (ci : Bool) : List Char → Option (List Char)
  | cs =>
    match tag, cs with
    | [], _ => some cs
    | t :: ts, c :: cs' =>
      if (if ci then c.toLower else c) == t then stripTag ts ci cs' else none
    | _ :: _, [] => none

/-- Try to match a fenced block at the current position; on success return
the captured body and the text after the whole match.  Tag alternatives are
tried in the order they appear in the regex. -/
def fenceMatchAt (tags : List (List Char)) (ci : Bool) (cs : List Char) :
    Option (List Char × List Char) :=
  match cs with
  | a :: b :: c :: rest =>
    if a == btick && b == btick && c == btick then
      tags.findSome? fun tag =>
        match stripTag tag ci rest with
        | none => none
        | some afterTag => (wsSplits afterTag).findSome? findClose
    else none
  | _ => none

/-- `re.finditer` scan: leftmost matches, continuing after each match end.
Returns (start, end, body) triples with positions in code points. -/
def scanFencesAux (tags : List (List Char)) (ci : Bool) :
    Nat → Nat → List Char → List (Nat × Nat × List Char)
  | 0, _, _ => []
  | _ + 1, _, [] => []
  | fuel + 1, pos, c :: rest =>
    match fenceMatchAt tags ci (c :: rest) with
    | some (body, after) =>
      let len := (c :: rest).length - after.length
      (pos, pos + len, body) :: scanFencesAux tags ci fuel (pos + len) after
    | none => scanFencesAux tags ci fuel (pos + 1) rest

/-- All fenced-block matches in a text. -/
def scanFences (tags : List (List Char)) (ci : Bool) (text : List Char) :
    List (Nat × Nat × List Char) :=
  scanFencesAux tags ci (text.length + 1) 0 text

/-- Tag alternatives of `bash_block_pattern`, in regex order. -/
def bashTags : List (List Char) :=
  ["bash".toList, "sh".toList, "shell".toList]

/-- Tag alternative of the tool-call block pattern. -/
def jsonTags : List (List Char) :=
  ["json".toList]

/-! ## JSON values and strict parsing (`json.loads`)

`_extract_tool_calls` feeds each fenced `json` block to `json.loads`.
The embedding parses the full JSON grammar (objects, arrays, strings with
escapes, numbers kept as lexemes, `true`/`false`/`null`, plus the
`NaN`/`Infinity`/`-Infinity` constants `json.loads` accepts); raw control
characters in strings are rejected as in strict mode.  A failed parse is
`none`, standing for `json.JSONDecodeError`. -/

inductive Json where
  | jnull
  | jbool (b : Bool)
  | jnum (lexeme : String)
  | jstr (s : String)
  | jarr (elems : List Json)
  | jobj (members : List (String × Json))

/-- JSON insignificant whitespace. -/
def jSkipWs (cs : List Char) : List Char :=
  cs.dropWhile fun c => c == ' ' || c == '\t' || c == '\n' || c == '\r'

/-- Hex digit value (folding case first, code points 48–57 and 97–102). -/
def hexDigitVal (c : Char) : Option Nat :=
  let n := c.toLower.toNat
  if 48 ≤ n ∧ n ≤ 57 then some (n - 48)
  else if 97 ≤ n ∧ n ≤ 102 then some (n - 87)
  else none

/-- String body parser, positioned after the opening quote; returns the
decoded characters and the rest after the closing quote. -/
def parseJString : Nat → List Char → Option (List Char × List Char)
  | 0, _ => none
  | _ + 1, [] => none
  | fuel + 1, c :: rest =>
    if c == '"' then some ([], rest)
    else if c == '\\' then
      match rest with
      | [] => none
      | e :: rest' =>
        if e == '"' then (parseJString fuel rest').map fun p => ('"' :: p.1, p.2)
        else if e == '\\' then (parseJString fuel rest').map fun p => ('\\' :: p.1, p.2)
        else if e == '/' then (parseJString fuel rest').map fun p => ('/' :: p.1, p.2)
        else if e == 'b' then (parseJString fuel rest').map fun p => ('\x08' :: p.1, p.2)
        else if e == 'f' then (parseJString fuel rest').map fun p => ('\x0c' :: p.1, p.2)
        else if e == 'n' then (parseJString fuel rest').map fun p => ('\n' :: p.1, p.2)
        else if e == 'r' then (parseJString fuel rest').map fun p => ('\r' :: p.1, p.2)
        else if e == 't' then (parseJString fuel rest').map fun p => ('\t' :: p.1, p.2)
        else if e == 'u' then
          match rest' with
          | h1 :: h2 :: h3 :: h4 :: rest'' =>
            match hexDigitVal h1, hexDigitVal h2, hexDigitVal h3, hexDigitVal h4 with
            | some a, some b, some c', some d =>
              let n := ((a * 16 + b) * 16 + c') * 16 + d
              -- a lone surrogate (kept by Python) is not a Lean scalar; map to U+FFFD
              let ch := if n < 0xd800 then Char.ofNat n
                else if 0xdfff < n then Char.ofNat n else Char.ofNat 0xfffd
              (parseJString fuel rest'').map fun p => (ch :: p.1, p.2)
            | _, _, _, _ => none
          | _ => none
        else none
    else if c.toNat < 0x20 then none
    else (parseJString fuel rest).map fun p => (c :: p.1, p.2)

/-- Fraction part of a JSON number (empty or `.` plus digits). -/
def jNumFrac (cs : List Char) : Option (List Char × List Char) :=
  match cs with
  | c :: r =>
    if c == '.' then
      let ds := r.takeWhile isDigitCh
      if ds = [] then none else some (c :: ds, r.drop ds.length)
    else some ([], cs)
  | [] => some ([], [])

/-- Exponent part of a JSON number (empty or `e`/`E`, sign, digits). -/
def jNumExp (cs : List Char) : Option (List Char × List Char) :=
  match cs with
  | c :: r =>
    if c == 'e' || c == 'E' then
      let (sgn, r') := match r with
        | s :: r' => if s == '+' || s == '-' then ([s], r') else (([] : List Char), r)
        | [] => ([], r)
      let ds := r'.takeWhile isDigitCh
      if ds = [] then none else some (c :: sgn ++ ds, r'.drop ds.length)
    else some ([], cs)
  | [] => some ([], [])

/-- JSON number lexeme: `-? (0 | [1-9][0-9]*) frac? exp?`. -/
def parseJNumber (cs : List Char) : Option (List Char × List Char) :=
  let (neg, cs1) := match cs with
    | c :: r => if c == '-' then (([c] : List Char), r) else ([], cs)
    | [] => ([], cs)
  match cs1 with
  | [] => none
  | d :: r =>
    let intDone : Option (List Char × List Char) :=
      if d == '0' then some (neg ++ [d], r)
      else if isDigitCh d then
        let ds := r.takeWhile isDigitCh
        some (neg ++ d :: ds, r.drop ds.length)
      else none
    match intDone with
    | none => none
    | some (ip, r1) =>
      match jNumFrac r1 with
      | none => none
      | some (fp, r2) =>
        match jNumExp r2 with
        | none => none
        | some (ep, r3) => some (ip ++ fp ++ ep, r3)

mutual

/-- Parse one JSON value at the current (whitespace-skipped) position. -/
def parseVal : Nat → List Char → Option (Json × List Char)
  | 0, _ => none
  | fuel + 1, cs =>
    match cs with
    | [] => none
    | c :: rest =>
      if c == lbrace then parseMembers fuel (jSkipWs rest)
      else if c == '[' then parseElems fuel (jSkipWs rest)
      else if c == '"' then
        (parseJString (rest.length + 1) rest).map fun p => (Json.jstr (String.mk p.1), p.2)
      else if "true".toList.isPrefixOf cs then some (.jbool true, cs.drop 4)
      else if "false".toList.isPrefixOf cs then some (.jbool false, cs.drop 5)
      else if "null".toList.isPrefixOf cs then some (.jnull, cs.drop 4)
      else if "NaN".toList.isPrefixOf cs then some (.jnum "NaN", cs.drop 3)
      else if "Infinity".toList.isPrefixOf cs then some (.jnum "Infinity", cs.drop 8)
      else if "-Infinity".toList.isPrefixOf cs then some (.jnum "-Infinity", cs.drop 9)
      else (parseJNumber cs).map fun p => (Json.jnum (String.mk p.1), p.2)

/-- Parse object members, positioned after `{` and whitespace. -/
def parseMembers : Nat → List Char → Option (Json × List Char)
  | 0, _ => none
  | fuel + 1, cs =>
    match cs with
    | c :: rest =>
      if c == rbrace then some (.jobj [], rest)
      else parseMemberList fuel cs
    | [] => none

/-- Parse a nonempty member list, positioned at a key. -/
def parseMemberList : Nat → List Char → Option (Json × List Char)
  | 0, _ => none
  | fuel + 1, cs =>
    match cs with
    | c :: rest =>
      if c == '"' then
        match parseJString (rest.length + 1) rest with
        | none => none
        | some (key, r1) =>
          match jSkipWs r1 with
          | colon :: r2 =>
            if colon == ':' then
              match parseVal fuel (jSkipWs r2) with
              | none => none
              | some (v, r3) =>
                match jSkipWs r3 with
                | sep :: r4 =>
                  if sep == ',' then
                    match parseMemberList fuel (jSkipWs r4) with
                    | some (.jobj kvs, r5) => some (.jobj ((String.mk key, v) :: kvs), r5)
                    | _ => none
                  else if sep == rbrace then
                    some (.jobj [(String.mk key, v)], r4)
                  else none
                | [] => none
            else none
          | [] => none
      else none
    | [] => none

/-- Parse array elements, positioned after `[` and whitespace. -/
def parseElems : Nat → List Char → Option (Json × List Char)
  | 0, _ => none
  | fuel + 1, cs =>
    match cs with
    | c :: rest =>
      if c == ']' then some (.jarr [], rest)
      else parseElemList fuel cs
    | [] => none

/-- Parse a nonempty element list, positioned at a value. -/
def parseElemList : Nat → List Char → Option (Json × List Char)
  | 0, _ => none
  | fuel + 1, cs =>
    match parseVal fuel cs with
    | none => none
    | some (v, r1) =>
      match jSkipWs r1 with
      | sep :: r2 =>
        if sep == ',' then
          match parseElemList fuel (jSkipWs r2) with
          | some (.jarr vs, r3) => some (.jarr (v :: vs), r3)
          | _ => none
        else if sep == ']' then some (.jarr [v], r2)
        else none
      | [] => none

end

/-- `json.loads`: a single JSON value with optional surrounding whitespace;
`none` models `json.JSONDecodeError`. -/
def json_loads (s : String) : Option Json :=
  let cs := jSkipWs s.toList
  match parseVal (3 * cs.length + 9) cs with
  | some (v, rest) => if jSkipWs rest = [] then some v else none
  | none => none

/-- Python `"k" in d` for a parsed object (duplicate keys allowed). -/
def jHasKey (k : String) (kvs : List (String × Json)) : Bool :=
  kvs.any fun p => p.1 == k

/-- Python `d["k"]` for a parsed object: the last binding wins, as in
`json.loads` duplicate-key handling. -/
def jGetLast (k : String) (kvs : List (String × Json)) : Json :=
  match kvs.foldl (fun acc p => if p.1 == k then some p.2 else acc)
      (none : Option Json) with
  | some v => v
  | none => .jnull

/-! ## Tool-call decoder (`LLMClientWithTools._extract_tool_calls`) -/

/-- A decoded tool call: in the source a dict with `name`, `arguments`
(arbitrary JSON values taken from the block) and a sequential `id`. -/
structure ToolCall where
  name : Json
  arguments : Json
  id : String

/-- Bodies of the fenced `json` blocks of a text, in order of discovery. -/
def jsonBlocksOf (text : List Char) : List (List Char) :=
  (scanFences jsonTags false text).map fun t => t.2.2

/-- Loop body of `_extract_tool_calls`: strict-parse the block; append an
invocation only when the value is an object with both a `tool` and an
`arguments` key, with sequential id `call_<count so far>`; any other block
leaves the accumulator unchanged (the `except JSONDecodeError: continue`
and the failed shape check). -/
def toolCallStep (acc : List ToolCall) (block : List Char) : List ToolCall :=
  match json_loads (String.mk block) with
  | some (.jobj kvs) =>
    if jHasKey "tool" kvs && jHasKey "arguments" kvs then
      acc ++ [{ name := jGetLast "tool" kvs
                arguments := jGetLast "arguments" kvs
                id := "call_" ++ toString acc.length }]
    else acc
  | _ => acc

/-- `_extract_tool_calls`: fold the loop body over the fenced `json`
blocks in order of discovery. -/
def extract_tool_calls (text : String) : List ToolCall :=
  (jsonBlocksOf text.toList).foldl toolCallStep []

/-- Per-block acceptance as the spec words it: a block yields an invocation
exactly when the strict JSON parse succeeds and the parsed value is an
object containing both a `tool` key and an `arguments` key. -/
def decodeBlockSpec (block : String) : Option (Json × Json) :=
  match json_loads block with
  | some (.jobj kvs) =>
    if jHasKey "tool" kvs && jHasKey "arguments" kvs then
      some (jGetLast "tool" kvs, jGetLast "arguments" kvs)
    else none
  | _ => none

/-- Sequential id assignment starting at `n`. -/
def assignIdsFrom (n : Nat) : List (Json × Json) → List ToolCall
  | [] => []
  | (t, a) :: rest => ⟨t, a, "call_" ++ toString n⟩ :: assignIdsFrom (n + 1) rest

/-! ## Conversation session state (`LLMClientWithTools`) -/

/-- Message roles used in `conversation_history` dicts. -/
inductive Role where
  | system | user | assistant | tool
deriving DecidableEq, Repr

/-- A `conversation_history` entry.  `toolCallId`/`toolName` are the extra
keys of a tool-result dict; `toolCalls` is the optional `tool_calls` key of
an assistant dict. -/
structure Message where
  role : Role
  content : String
  toolCallId : Option String := none
  toolName : Option String := none
  toolCalls : Option (List ToolCall) := none

/-- The mutable state of `LLMClientWithTools` that the claims concern
(`expert_mode`, `response_mode`, `config`, `system_prompt`,
`conversation_history`; the cancellation flag is passed explicitly to the
streaming model below). -/
structure ClientState where
  expert_mode : ExpertMode
  response_mode : ResponseMode
  config : ExpertCfg
  system_prompt : String
  conversation_history : List Message

/-- `__init__`: fresh client with empty history. -/
def initClient (m : ExpertMode) (rm : ResponseMode) : ClientState :=
  { expert_mode := m
    response_mode := rm
    config := get_expert_config m rm
    system_prompt := get_system_prompt m rm
    conversation_history := [] }

/-- `set_expert_mode`: refresh mode, config and system prompt, and replace
the content of the leading system message in place when one is present. -/
def set_expert_mode (st : ClientState) (m : ExpertMode) : ClientState :=
  let sp := get_system_prompt m st.response_mode
  { st with
    expert_mode := m
    config := get_expert_config m st.response_mode
    system_prompt := sp
    conversation_history :=
      match st.conversation_history with
      | m0 :: rest => if m0.role = Role.system then { m0 with content := sp } :: rest
                      else m0 :: rest
      | [] => [] }

/-- `set_response_mode`: same shape as `set_expert_mode` for verbosity. -/
def set_response_mode (st : ClientState) (rm : ResponseMode) : ClientState :=
  let sp := get_system_prompt st.expert_mode rm
  { st with
    response_mode := rm
    config := get_expert_config st.expert_mode rm
    system_prompt := sp
    conversation_history :=
      match st.conversation_history with
      | m0 :: rest => if m0.role = Role.system then { m0 with content := sp } :: rest
                      else m0 :: rest
      | [] => [] }

/-- `add_system_message`: insert a system message at index 0 unless the
history already starts with one. -/
def add_system_message (st : ClientState) : ClientState :=
  match st.conversation_history with
  | [] => { st with conversation_history := [{ role := .system, content := st.system_prompt }] }
  | m0 :: rest =>
    if m0.role = Role.system then st
    else { st with conversation_history :=
      { role := .system, content := st.system_prompt } :: m0 :: rest }

/-- The emoji-stripped expert name used in the first-user-message tag
(`add_user_message`). -/
def expertNameOf (cfgName : String) : String :=
  replaceAll (replaceAll (replaceAll (replaceAll (replaceAll cfgName
    "🐧 " "") "🐍 " "") "🚀 " "") "🗄️ " "") "💬 " ""

/-- `add_user_message`: append a user turn; the very first user message is
prefixed with the persona tag. -/
def add_user_message (st : ClientState) (content : String) : ClientState :=
  let isFirst := ¬ st.conversation_history.any fun m => m.role == Role.user
  let content' :=
    if isFirst then "[You are " ++ expertNameOf st.config.name ++ "] " ++ content
    else content
  { st with conversation_history :=
      st.conversation_history ++ [{ role := .user, content := content' }] }

/-- `add_assistant_message`: append; the `tool_calls` key is set only for a
truthy (nonempty) list. -/
def add_assistant_message (st : ClientState) (content : String)
    (toolCalls : Option (List ToolCall)) : ClientState :=
  let tc := match toolCalls with
    | some l => if l.isEmpty then none else some l
    | none => none
  { st with conversation_history :=
      st.conversation_history ++ [{ role := .assistant, content := content, toolCalls := tc }] }

/-- `add_tool_result`: append a tool-role message carrying the invocation
id and tool name. -/
def add_tool_result (st : ClientState) (id name result : String) : ClientState :=
  { st with conversation_history :=
      st.conversation_history ++
        [{ role := .tool, content := result, toolCallId := some id, toolName := some name }] }

/-- `clear_history`. -/
def clear_history (st : ClientState) : ClientState :=
  { st with conversation_history := [] }

/-- The `!expert <name>` handler in `InteractiveCLI._handle_special_command`:
`set_expert_mode` followed by `clear_history`. -/
def switchExpert (st : ClientState) (m : ExpertMode) : ClientState :=
  clear_history (set_expert_mode st m)

/-- The history-mutating operations of the wrapper, for the history
invariant claim. -/
inductive HistOp where
  | addSystem
  | addUser (content : String)
  | addAssistant (content : String) (toolCalls : Option (List ToolCall))
  | addToolResult (id name result : String)
  | setExpert (m : ExpertMode)
  | setResponse (rm : ResponseMode)
  | clear

/-- Apply one operation. -/
def applyOp (st : ClientState) : HistOp → ClientState
  | .addSystem => add_system_message st
  | .addUser c => add_user_message st c
  | .addAssistant c tc => add_assistant_message st c tc
  | .addToolResult i n r => add_tool_result st i n r
  | .setExpert m => set_expert_mode st m
  | .setResponse rm => set_response_mode st rm
  | .clear => clear_history st

/-- Run a sequence of operations from a fresh client. -/
def runOps (m : ExpertMode) (rm : ResponseMode) (ops : List HistOp) : ClientState :=
  ops.foldl applyOp (initClient m rm)

/-! ## Streaming turn with cooperative cancellation
(`chat_with_tools` and the turn body of `InteractiveCLI.run`)

The backend stream is the list of fragments it would deliver; the external
interrupt (`cancel_response`, raising `_cancel_flag` mid-stream) is modelled
by the index from which the flag reads true: `cancelAt = some k` means the
flag is up when fragment `k` is received (after `k` fragments were already
yielded), `none` means it is never raised during the turn. -/

/-- Events yielded by the `chat_with_tools` generator. -/
inductive Event where
  | text (content : String)
  | toolCallEv (name : Json) (arguments : Json) (id : String)
  | cancelledEv

/-- Flag value observed at the check before yielding fragment `i`. -/
def flagAt : Option Nat → Nat → Bool
  | none, _ => false
  | some k, i => k ≤ i

/-- The streaming loop body: before yielding each received fragment the
cancellation flag is checked; if set, a single cancellation event is
yielded and the loop returns.  Also accumulates `response_text` and
reports whether the turn was cancelled. -/
def streamLoop : List String → Nat → Option Nat → String → List Event × String × Bool
  | [], _, _, acc => ([], acc, false)
  | c :: cs, i, k, acc =>
    if flagAt k i then ([Event.cancelledEv], acc, true)
    else
      let r := streamLoop cs (i + 1) k (acc ++ c)
      (Event.text c :: r.1, r.2.1, r.2.2)

/-- `chat_with_tools`: ensure the system message, stream fragments with the
cancellation check, and only after an uncancelled stream decode tool calls
from the accumulated response text. -/
def chat_with_tools (st : ClientState) (chunks : List String)
    (cancelAt : Option Nat) : ClientState × List Event :=
  let st1 := add_system_message st
  let r := streamLoop chunks 0 cancelAt ""
  if r.2.2 then (st1, r.1)
  else
    (st1, r.1 ++ (extract_tool_calls r.2.1).map fun tc =>
      Event.toolCallEv tc.name tc.arguments tc.id)

/-- Recognize a cancellation event. -/
def isCancelEv : Event → Bool
  | .cancelledEv => true
  | _ => false

/-- Text accumulated by the interactive loop from the yielded events. -/
def collectText (evs : List Event) : String :=
  evs.foldl (fun acc e => match e with | .text c => acc ++ c | _ => acc) ""

/-- One streamed turn of `InteractiveCLI.run`: append the user message,
consume the stream, and on cancellation roll back the trailing user
message instead of appending an assistant reply.  (On completion the loop
goes on to command suggestions and tool-call execution, which are modelled
separately; the history state after `add_assistant_message` is what this
function returns for the uncancelled case.) -/
def processTurn (st : ClientState) (input : String) (chunks : List String)
    (cancelAt : Option Nat) : ClientState :=
  let stU := add_user_message st input
  let res := chat_with_tools stU chunks cancelAt
  let st2 := res.1
  let evs := res.2
  if evs.any isCancelEv then
    { st2 with conversation_history :=
        match st2.conversation_history.getLast? with
        | some m => if m.role = Role.user then st2.conversation_history.dropLast
                    else st2.conversation_history
        | none => st2.conversation_history }
  else
    add_assistant_message st2 (collectText evs) none

/-! ## Command candidate extractor (src/cli/command_parser.py) -/

/-- `CommandOption` dataclass. -/
structure CommandOption where
  command : String
  explanation : String
  confidence : Rat
  source : String
deriving DecidableEq, Repr

/-- Split a character list on newlines, keeping empty pieces
(Python `str.split('\n')`). -/
def splitOnNlAux : Nat → List Char → List (List Char)
  | 0, l => [l]
  | fuel + 1, l =>
    let seg := l.takeWhile fun c => ¬ (c == '\n')
    match l.drop seg.length with
    | [] => [seg]
    | _ :: r => seg :: splitOnNlAux fuel r

/-- Python `str.split('\n')`. -/
def splitOnNl (l : List Char) : List (List Char) :=
  splitOnNlAux (l.length + 1) l

/-! ### `_find_explanation_near`

The four explanation regexes all have the shape
`marker \s* ([^stop]+)`; the greedy `\s*` backtracks, so the capture
starts at the last position of the whitespace run (or just after it) whose
character is not a stop character. -/

/-- Capture of `\s*([^stop]+)` immediately after a marker; `none` when the
pattern cannot match here. -/
def explCapture (stop : Char → Bool) (rest : List Char) : Option (List Char) :=
  let wsLen := (rest.takeWhile isPyWS).length
  ((List.range (wsLen + 1)).reverse).findSome? fun j =>
    match rest.drop j with
    | [] => none
    | c :: _ =>
      if stop c then none
      else some ((rest.drop j).takeWhile fun x => ¬ stop x)

/-- `re.search` for `marker \s* ([^stop]+)`: leftmost match's capture. -/
def searchExpl (markerMatch : List Char → Option (List Char)) (stop : Char → Bool) :
    List Char → Option (List Char)
  | [] => none
  | c :: rest =>
    match markerMatch (c :: rest) with
    | some afterMarker =>
      match explCapture stop afterMarker with
      | some cap => some cap
      | none => searchExpl markerMatch stop rest
    | none => searchExpl markerMatch stop rest

/-- Marker of `[-→•]\s*([^.\n]+)`. -/
def markerBullet : List Char → Option (List Char)
  | c :: rest => if c == '-' || c == '→' || c == '•' then some rest else none
  | [] => none

/-- Marker of `:\s*([^.\n]+)`. -/
def markerColon : List Char → Option (List Char)
  | c :: rest => if c == ':' then some rest else none
  | [] => none

/-- Marker of `//\s*([^\n]+)`. -/
def markerSlashes : List Char → Option (List Char)
  | a :: b :: rest => if a == '/' && b == '/' then some rest else none
  | _ => none

/-- Marker of `#\s*([^\n]+)`. -/
def markerHash : List Char → Option (List Char)
  | c :: rest => if c == '#' then some rest else none
  | [] => none

/-- Stop class `[.\n]`. -/
def stopDotNl (c : Char) : Bool := c == '.' || c == '\n'

/-- Stop class `[\n]`. -/
def stopNl (c : Char) : Bool := c == '\n'

/-- One explanation pattern: the first match's capture, stripped, accepted
only when longer than 10 characters. -/
def tryExplPattern (markerMatch : List Char → Option (List Char))
    (stop : Char → Bool) (ctx : List Char) : Option String :=
  (searchExpl markerMatch stop ctx).bind fun cap =>
    let e := pyStripL cap
    if e.length > 10 then some (String.mk e) else none

/-- `_find_explanation_near`: ±150-character window around the match,
joined with a space; the four patterns are tried in order. -/
def find_explanation_near (text : List Char) (s e : Nat) : Option String :=
  let before := (text.take s).drop (s - 150)
  let after := (text.drop e).take 150
  let ctx := before ++ ' ' :: after
  match tryExplPattern markerBullet stopDotNl ctx with
  | some r => some r
  | none =>
    match tryExplPattern markerColon stopDotNl ctx with
    | some r => some r
    | none =>
      match tryExplPattern markerSlashes stopNl ctx with
      | some r => some r
      | none => tryExplPattern markerHash stopNl ctx

/-! ### `_extract_from_code_blocks` line cleaning -/

/-- `re.sub(r'^[\$#>]\s*', '', line)`. -/
def stripPromptMarker (l : List Char) : List Char :=
  match l with
  | c :: rest =>
    if c == '$' || c == '#' || c == '>' then rest.dropWhile isPyWS else l
  | [] => []

/-- `re.match(r'^/[\w/.-]+$', line)`. -/
def isJustPath (l : List Char) : Bool :=
  match l with
  | c :: rest =>
    c == '/' && ¬ rest.isEmpty &&
      rest.all fun x => isWordCh x || x == '/' || x == '.' || x == '-'
  | [] => false

/-- `re.match(r'^[0-9]', line)`. -/
def startsWithDigit (l : List Char) : Bool :=
  match l with
  | c :: _ => isDigitCh c
  | [] => false

/-- `re.match(r'^total\s+\d+', line)`. -/
def isTotalLine (l : List Char) : Bool :=
  if "total".toList.isPrefixOf l then
    let r := l.drop 5
    let ws := r.takeWhile isPyWS
    ¬ ws.isEmpty &&
      (match r.drop ws.length with
       | c :: _ => isDigitCh c
       | [] => false)
  else false

/-- `re.match(r'^[drwx-]{10}', line)`. -/
def isPermStr (l : List Char) : Bool :=
  decide (l.length ≥ 10) &&
    (l.take 10).all fun c => c == 'd' || c == 'r' || c == 'w' || c == 'x' || c == '-'

/-- A connective of the sentence heuristic occurs at the head of `s`,
followed by a word boundary. -/
def connAt (s : List Char) : Bool :=
  ["of", "the", "and", "or", "is", "are", "will", "can"].any fun w =>
    w.toList.isPrefixOf s &&
      (match s.drop w.toList.length with
       | [] => true
       | c :: _ => ¬ isWordCh c)

/-- A connective occurs at some position of `s` (with boundary). -/
def anyConnSuffix : List Char → Bool
  | [] => false
  | c :: t => connAt (c :: t) || anyConnSuffix t

/-- `re.match(r'^[A-Z][a-z]+.*(?:of|the|and|or|is|are|will|can)\b', line)`:
capital, a lowercase letter, and a connective with boundary at index ≥ 2. -/
def isEnglishSentenceLine (l : List Char) : Bool :=
  match l with
  | a :: b :: rest => isAsciiUpper a && isAsciiLower b && anyConnSuffix rest
  | _ => false

/-- `re.match(r'^[A-Z](?:explanation|note|...)\b', line, re.IGNORECASE)`:
with IGNORECASE the class `[A-Z]` matches any ASCII letter. -/
def isCapExplWord (l : List Char) : Bool :=
  match l with
  | a :: rest =>
    isAsciiAlpha a &&
      (["explanation", "note", "example", "usage", "description", "find",
        "xargs", "replace"].any fun w =>
        w.toList.isPrefixOf (lowerL (rest.take w.toList.length)) &&
          (match rest.drop w.toList.length with
           | [] => true
           | c :: _ => ¬ isWordCh c))
  | [] => false

/-- Leftover language markers from fence tags. -/
def isLangMarker (l : List Char) : Bool :=
  ["bash", "sh", "shell", "python", "javascript", "java", "ruby", "go",
    "rust"].any fun w => w.toList == l

/-- The keep test: the first character is lowercase or one of tilde, dot,
slash, dash. -/
def keepsAsCommand (l : List Char) : Bool :=
  match l with
  | c :: _ => isAsciiLower c || c == '~' || c == '.' || c == '/' || c == '-'
  | [] => false

/-- The per-block line cleaning of `_extract_from_code_blocks`: strip each
line, drop empties, strip shell prompts, drop output/prose-looking lines,
keep command-looking lines. -/
def cleanBlockLines (block : List Char) : List (List Char) :=
  (((splitOnNl block).map pyStripL).filter fun l => ¬ l.isEmpty).filterMap fun line =>
    let cleaned := stripPromptMarker line
    if cleaned.isEmpty then none
    else if isJustPath cleaned || startsWithDigit cleaned || isTotalLine cleaned ||
        isPermStr cleaned || isEnglishSentenceLine cleaned ||
        isCapExplWord cleaned || isLangMarker cleaned then none
    else if keepsAsCommand cleaned then some cleaned
    else none

/-- `_extract_from_code_blocks`. -/
def extract_from_code_blocks (text : List Char) : List CommandOption :=
  (scanFences bashTags true text).filterMap fun m =>
    let expl := find_explanation_near text m.1 m.2.1
    let cl := cleanBlockLines (pyStripL m.2.2)
    match cl with
    | [single] =>
      some { command := String.mk single
             explanation := expl.getD "Command from code block"
             confidence := 9 / 10
             source := "code_block" }
    | _ =>
      if cl.length > 1 ∧ cl.length ≤ 5 then
        some { command := String.intercalate "\n" (cl.map String.mk)
               explanation := expl.getD "Multi-line command"
               confidence := 85 / 100
               source := "code_block" }
      else none

/-! ### `_extract_from_backticks` -/

/-- `re.finditer` for the backtick span pattern: backtick, one or more
non-backtick characters, backtick; (start, end, span) triples. -/
def scanBackticksAux : Nat → Nat → List Char → List (Nat × Nat × List Char)
  | 0, _, _ => []
  | _ + 1, _, [] => []
  | fuel + 1, pos, c :: rest =>
    if c == btick then
      let span := rest.takeWhile fun x => ¬ (x == btick)
      match span, rest.drop span.length with
      | _ :: _, _ :: r3 =>
        (pos, pos + span.length + 2, span) ::
          scanBackticksAux fuel (pos + span.length + 2) r3
      | _, _ => scanBackticksAux fuel (pos + 1) rest
    else scanBackticksAux fuel (pos + 1) rest

/-- All backtick-span matches of a text. -/
def scanBackticks (text : List Char) : List (Nat × Nat × List Char) :=
  scanBackticksAux (text.length + 1) 0 text

/-- Count of non-overlapping occurrences of three backticks
(`re.findall(r'```', before)`). -/
def countTriplesAux : Nat → List Char → Nat
  | 0, _ => 0
  | _ + 1, [] => 0
  | fuel + 1, c :: rest =>
    if isTripleTick (c :: rest) then 1 + countTriplesAux fuel (rest.drop 2)
    else countTriplesAux fuel rest

/-- `_is_inside_code_block`: odd number of fence markers before `pos`. -/
def is_inside_code_block (text : List Char) (pos : Nat) : Bool :=
  countTriplesAux (pos + 1) (text.take pos) % 2 == 1

/-- The curated utility list of `_looks_like_command`. -/
def common_commands : List String :=
  ["ls", "cd", "pwd", "cat", "grep", "find", "sed", "awk",
   "git", "docker", "kubectl", "npm", "pip", "python",
   "echo", "mkdir", "rm", "mv", "cp", "chmod", "chown",
   "sudo", "apt", "yum", "brew", "curl", "wget", "ssh",
   "ps", "kill", "top", "df", "du", "tar", "gzip"]

/-- `_looks_like_command`: first word (skipping a leading `sudo`) is a
known utility, or the text contains a pipe or redirect. -/
def looks_like_command (cmd : List Char) : Bool :=
  let ws := pySplitWs cmd
  let fw0 := match ws with
    | [] => ([] : List Char)
    | w :: _ => w
  let fw := if fw0 == "sudo".toList && decide (ws.length > 1) then ws.getD 1 [] else fw0
  common_commands.any (fun c => c.toList == fw) ||
    cmd.any (fun c => c == '|') || cmd.any (fun c => c == '>')

/-- `_extract_from_backticks`. -/
def extract_from_backticks (text : List Char) : List CommandOption :=
  (scanBackticks text).filterMap fun m =>
    let command := pyStripL m.2.2
    if is_inside_code_block text m.1 then none
    else if ¬ looks_like_command command then none
    else
      some { command := String.mk command
             explanation := (find_explanation_near text m.1 m.2.1).getD "Suggested command"
             confidence := 7 / 10
             source := "backticks" }

/-! ### `_extract_from_patterns` -/

/-- Capture of `` \s*`?([^`\n]+)`? `` after `keyword:`; greedy `\s*` with
backtracking, greedy optional backticks around the capture. -/
def kwCapture (r : List Char) : Option (List Char × List Char) :=
  let wsLen := (r.takeWhile isPyWS).length
  ((List.range (wsLen + 1)).reverse).findSome? fun j =>
    match r.drop j with
    | [] => none
    | c :: rest =>
      if c == btick then
        match rest with
        | c2 :: _ =>
          if c2 == '\n' || c2 == btick then none
          else
            let cap := rest.takeWhile fun x => ¬ (x == btick || x == '\n')
            let r2 := rest.drop cap.length
            let r3 := match r2 with
              | t :: rr => if t == btick then rr else r2
              | [] => r2
            some (cap, r3)
        | [] => none
      else if c == '\n' then none
      else
        let cap := (c :: rest).takeWhile fun x => ¬ (x == btick || x == '\n')
        let r2 := (c :: rest).drop cap.length
        let r3 := match r2 with
          | t :: rr => if t == btick then rr else r2
          | [] => r2
        some (cap, r3)

/-- Try the prefix pattern `(?:run|execute|try|use):...` (IGNORECASE) at
the current position; returns (capture, rest after the match). -/
def kwMatchAt (cs : List Char) : Option (List Char × List Char) :=
  ["run".toList, "execute".toList, "try".toList, "use".toList].findSome? fun kw =>
    match stripTag kw true cs with
    | none => none
    | some afterKw =>
      match afterKw with
      | c :: r => if c == ':' then kwCapture r else none
      | [] => none

/-- `re.finditer` for the prefix pattern. -/
def scanKwAux : Nat → Nat → List Char → List (Nat × Nat × List Char)
  | 0, _, _ => []
  | _ + 1, _, [] => []
  | fuel + 1, pos, c :: rest =>
    match kwMatchAt (c :: rest) with
    | some (cap, after) =>
      let len := (c :: rest).length - after.length
      (pos, pos + len, cap) :: scanKwAux fuel (pos + len) after
    | none => scanKwAux fuel (pos + 1) rest

/-- All prefix-pattern matches of a text. -/
def scanKw (text : List Char) : List (Nat × Nat × List Char) :=
  scanKwAux (text.length + 1) 0 text

/-- `_extract_from_patterns`. -/
def extract_from_patterns (text : List Char) : List CommandOption :=
  (scanKw text).map fun m =>
    { command := String.mk (pyStripL m.2.2)
      explanation := (find_explanation_near text m.1 m.2.1).getD "Suggested command"
      confidence := 6 / 10
      source := "pattern" }

/-! ### Filtering, deduplication, ranking (`parse`) -/

/-- `_is_likely_command`. -/
def is_likely_command (cmd : String) : Bool :=
  let l := cmd.toList
  if l.length < 2 then false
  else if l.length > 500 then false
  else if (¬ l.isEmpty && l.all isAsciiAlpha) && decide (l.length > 10) then false
  else if (match l.getLast? with
           | some c => c == '.'
           | none => false) && l.any (fun c => c == ' ') then false
  else true

/-- One step of `_deduplicate`: dict insertion keeps the first position of
a normalized key; the stored value is replaced only by a strictly higher
confidence. -/
def dedupInsert (seen : List (String × CommandOption)) (cmd : CommandOption) :
    List (String × CommandOption) :=
  let key := lowerS (pyStrip cmd.command)
  if seen.any fun p => p.1 == key then
    seen.map fun p =>
      if p.1 == key && decide (cmd.confidence > p.2.confidence) then (p.1, cmd) else p
  else seen ++ [(key, cmd)]

/-- `_deduplicate`. -/
def deduplicate (cmds : List CommandOption) : List CommandOption :=
  (cmds.foldl dedupInsert []).map fun p => p.2

/-- Stable insertion for the descending confidence sort. -/
def insertByConf (c : CommandOption) : List CommandOption → List CommandOption
  | [] => [c]
  | d :: ds =>
    if c.confidence ≥ d.confidence then c :: d :: ds else d :: insertByConf c ds

/-- `commands.sort(key=..., reverse=True)`: stable descending sort by
confidence (Python's sort is stable; any stable algorithm computes the
same list). -/
def sortByConfDesc : List CommandOption → List CommandOption
  | [] => []
  | c :: cs => insertByConf c (sortByConfDesc cs)

/-- `CommandParser.parse`: the three passes in order, deduplicate, sort by
confidence, filter non-command-looking strings, truncate. -/
def parse (text : String) (maxOptions : Nat := 3) : List CommandOption :=
  let t := text.toList
  let commands := extract_from_code_blocks t ++ extract_from_backticks t ++
    extract_from_patterns t
  (((sortByConfDesc (deduplicate commands)).filter fun c =>
    is_likely_command c.command).take maxOptions)

/-! ## Approval gate and executor (src/cli/command_executor.py)

External effects are explicit values: the child process outcome of this
execution (`ProcResult`), the local filesystem as a path-to-contents map,
and the interactive answers (`UserIO`: the overwrite confirmation and the
text typed at the modify prompt; `choice`: the validated answer of the
approval prompt, one of execute/modify/skip or their one-letter forms). -/

/-- Outcome of the spawned child process. -/
structure ProcResult where
  returncode : Int
  stdout : String
  stderr : String
deriving DecidableEq, Repr

/-- Tool arguments: a string-valued dict. -/
def argGet (args : List (String × String)) (k : String) : String :=
  match args.find? fun p => p.1 == k with
  | some p => p.2
  | none => ""

/-- Dict assignment `d[k] = v`. -/
def argSet (args : List (String × String)) (k v : String) :
    List (String × String) :=
  if args.any fun p => p.1 == k then
    args.map fun p => if p.1 == k then (k, v) else p
  else args ++ [(k, v)]

/-- Filesystem read: `Path.exists` / `read_text`. -/
def fsRead (fs : List (String × String)) (p : String) : Option String :=
  match fs.find? fun q => q.1 == p with
  | some q => some q.2
  | none => none

/-- Filesystem write: `write_text` (create or overwrite). -/
def fsWrite (fs : List (String × String)) (p c : String) :
    List (String × String) :=
  if fs.any fun q => q.1 == p then
    fs.map fun q => if q.1 == p then (p, c) else q
  else fs ++ [(p, c)]

/-- Interactive answers consumed by the executor. -/
structure UserIO where
  overwriteConfirm : Bool
  modifyInput : String
deriving DecidableEq, Repr

/-- `_execute_shell_command`: success iff exit code 0; the result text is
always the exit-code/stdout/stderr report. -/
def execute_shell_command (args : List (String × String)) (pr : ProcResult) :
    Bool × Option String :=
  let success := pr.returncode == 0
  (success,
    some ("Exit code: " ++ toString pr.returncode ++ "\nStdout:\n" ++ pr.stdout ++
      "\nStderr:\n" ++ pr.stderr))

/-- `_read_file`. -/
def read_file_tool (args : List (String × String))
    (fs : List (String × String)) : Bool × Option String :=
  let filepath := argGet args "filepath"
  match fsRead fs filepath with
  | none => (false, some ("File not found: " ++ filepath))
  | some content => (true, some content)

/-- `_write_file`: an existing target requires the overwrite confirmation
(default decline) before anything is written. -/
def write_file_tool (args : List (String × String))
    (fs : List (String × String)) (ui : UserIO) :
    (Bool × Option String) × List (String × String) :=
  let filepath := argGet args "filepath"
  let content := argGet args "content"
  let fileExists := (fsRead fs filepath).isSome
  if fileExists && ¬ ui.overwriteConfirm then
    ((false, some "User cancelled overwrite"), fs)
  else
    ((true, some ((if fileExists then "Updated " else "Created ") ++ filepath)),
      fsWrite fs filepath content)

/-- `_execute_tool`: dispatch on the tool name; an unrecognized name is a
failure result, not an exception, and touches nothing. -/
def execute_tool (name : String) (args : List (String × String))
    (fs : List (String × String)) (pr : ProcResult) (ui : UserIO) :
    (Bool × Option String) × List (String × String) :=
  if name == "execute_shell_command" then (execute_shell_command args pr, fs)
  else if name == "read_file" then (read_file_tool args fs, fs)
  else if name == "write_file" then write_file_tool args fs ui
  else ((false, some ("Unknown tool: " ++ name)), fs)

/-- `Prompt.ask` with a default: empty input selects the default. -/
def promptAsk (default input : String) : String :=
  if input == "" then default else input

/-- `_modify_arguments`: re-prompt for the primary argument with the old
value as default; every branch returns a dict (`new_args`), including the
fall-through for other tool names. -/
def modify_arguments (toolName : String) (args : List (String × String))
    (ui : UserIO) : Option (List (String × String)) :=
  if toolName == "execute_shell_command" then
    let newCommand := promptAsk (argGet args "command") ui.modifyInput
    some (if newCommand ≠ "" then argSet args "command" newCommand else args)
  else if toolName == "read_file" then
    let newFp := promptAsk (argGet args "filepath") ui.modifyInput
    some (if newFp ≠ "" then argSet args "filepath" newFp else args)
  else if toolName == "write_file" then
    let newFp := promptAsk (argGet args "filepath") ui.modifyInput
    some (if newFp ≠ "" then argSet args "filepath" newFp else args)
  else some args

/-- `execute_with_approval`: auto-approve skips the prompt entirely;
otherwise execute / modify / skip on the validated choice (the prompt
re-asks until one of the six accepted strings arrives; its default is
execute). -/
def execute_with_approval (toolName : String) (args : List (String × String))
    (autoApprove : Bool) (fs : List (String × String)) (pr : ProcResult)
    (ui : UserIO) (choice : String) :
    (Bool × Option String) × List (String × String) :=
  if autoApprove then execute_tool toolName args fs pr ui
  else if choice == "e" || choice == "execute" then execute_tool toolName args fs pr ui
  else if choice == "m" || choice == "modify" then
    match modify_arguments toolName args ui with
    | none => ((false, some "Modification cancelled"), fs)
    | some args' => execute_tool toolName args' fs pr ui
  else if choice == "s" || choice == "skip" then ((false, some "Skipped by user"), fs)
  else execute_tool toolName args fs pr ui

/-! ## Auxiliary notions used by the statements -/

/-- Identifying text of a persona: the opening words of its expert prompt
in `expert_prompts`. -/
def personaIdentifier : ExpertMode → String
  | .linux => "Linux system expert"
  | .python => "Python expert"
  | .devops => "DevOps expert"
  | .database => "Database expert"
  | .general => "General AI assistant"

/-- Number of system-role messages in a history. -/
def countSystem (h : List Message) : Nat :=
  (h.filter fun m => m.role == Role.system).length

/-- Invariant: no system message after index 0. -/
def sysOnlyAtHead (h : List Message) : Prop :=
  ∀ m ∈ h.drop 1, m.role ≠ Role.system

/-- The history transformation of `add_system_message`, on plain lists. -/
def insertSysList (sp : String) : List Message → List Message
  | [] => [{ role := .system, content := sp }]
  | m0 :: rest =>
    if m0.role = Role.system then m0 :: rest
    else { role := .system, content := sp } :: m0 :: rest

/-! # Theorems -/

/-- C9 (counterexample): the claim says `_is_likely_command` rejects
`"this is a long sentence"` as alphabetic-only of length > 10; on the code
the alphabetic-only test is Python `isalpha`, which is false for a string
containing spaces, so the filter accepts this very string. -/
theorem c9_counterexample :
    is_likely_command "this is a long sentence" = true := by decide

/-- C9 (amended): `_is_likely_command` accepts `"ls"` and `"pwd"`; it
rejects alphabetic-only strings longer than 10 characters such as
`"thisisalongsentence"`; but `"this is a long sentence"` is accepted,
because the spaces make `isalpha` false and the sentence test requires a
trailing period. -/
theorem c9_is_likely_command_amended :
    is_likely_command "ls" = true ∧
    is_likely_command "pwd" = true ∧
    is_likely_command "thisisalongsentence" = false ∧
    is_likely_command "this is a long sentence" = true := by decide

/-- C5: for every shell execution the success flag is true iff the child's
exit code is 0, and the result text is always the populated
`"Exit code: N\nStdout:\n...\nStderr:\n..."` report; in particular the
approval gate with auto-approve on `execute_shell_command`,
`command = "echo hi"` (child exits 0 with stdout `"hi\n"`) returns
`(true, "Exit code: 0\nStdout:\nhi\n\nStderr:\n")` without consulting any
prompt answer. -/
theorem c5_shell_result :
    (∀ (args : List (String × String)) (pr : ProcResult),
      ((execute_shell_command args pr).1 = true ↔ pr.returncode = 0) ∧
      (execute_shell_command args pr).2 =
        some ("Exit code: " ++ toString pr.returncode ++ "\nStdout:\n" ++
          pr.stdout ++ "\nStderr:\n" ++ pr.stderr)) ∧
    execute_with_approval "execute_shell_command" [("command", "echo hi")] true []
      ⟨0, "hi\n", ""⟩ ⟨false, ""⟩ "" =
      ((true, some "Exit code: 0\nStdout:\nhi\n\nStderr:\n"), []) := by
  refine ⟨fun args pr => ⟨?_, rfl⟩, by decide⟩
  simp [execute_shell_command]

/-- C6: a `write_file` call whose target exists, with the overwrite
confirmation declined, returns `(false, "User cancelled overwrite")` and
leaves the filesystem exactly as it was (nothing is written before the
confirmation). -/
theorem c6_overwrite_declined (args fs : List (String × String)) (ui : UserIO)
    (c : String) (hex : fsRead fs (argGet args "filepath") = some c)
    (hdecl : ui.overwriteConfirm = false) :
    write_file_tool args fs ui = ((false, some "User cancelled overwrite"), fs) := by
  simp [write_file_tool, hex, hdecl]

/-- Witness for C6 at a concrete filesystem and invocation. -/
theorem c6_overwrite_declined_witness :
    fsRead [("x.txt", "old")] (argGet [("filepath", "x.txt"), ("content", "new")] "filepath") =
      some "old" ∧
    write_file_tool [("filepath", "x.txt"), ("content", "new")] [("x.txt", "old")]
      ⟨false, ""⟩ = ((false, some "User cancelled overwrite"), [("x.txt", "old")]) :=
  ⟨by decide, c6_overwrite_declined _ _ _ "old" (by decide) rfl⟩

/-- C10 (code evaluated at the failing situation): `_modify_arguments`
returns a dict on every input — every branch, including the fall-through
for unknown tool names, ends in `some`; hence the
`(false, "Modification cancelled")` branch of `execute_with_approval` is
unreachable and a modification can never be cancelled, contradicting the
claim and the `Optional` return contract the caller checks for. -/
theorem c10_modify_never_cancelled (toolName : String)
    (args : List (String × String)) (ui : UserIO) :
    ∃ a, modify_arguments toolName args ui = some a := by
  unfold modify_arguments
  split_ifs <;> exact ⟨_, rfl⟩

/-- C8: an unrecognized tool name is not executed — `_execute_tool` falls
through to the failure result `(false, "Unknown tool: <name>")` leaving
the filesystem untouched — and it does not abort extraction: a response
holding a well-formed block with an unknown tool followed by a `read_file`
block still decodes to both invocations in order. -/
theorem c8_unknown_tool :
    (∀ (name : String) (args fs : List (String × String)) (pr : ProcResult)
      (ui : UserIO),
      name ∉ (["execute_shell_command", "read_file", "write_file"] : List String) →
      execute_tool name args fs pr ui = ((false, some ("Unknown tool: " ++ name)), fs)) ∧
    (extract_tool_calls
      "```json\n\x7b\"tool\":\"frobnicate\",\"arguments\":\x7b\x7d\x7d\n```\nand\n```json\n\x7b\"tool\":\"read_file\",\"arguments\":\x7b\"filepath\":\"x\",\"reason\":\"r\"\x7d\x7d\n```").map
        (fun tc => (tc.name, tc.id)) =
      [(Json.jstr "frobnicate", "call_0"), (Json.jstr "read_file", "call_1")] := by
  constructor
  · intro name args fs pr ui h
    simp only [List.mem_cons, List.not_mem_nil, or_false, not_or] at h
    obtain ⟨h1, h2, h3⟩ := h
    simp [execute_tool, h1, h2, h3]
  · rfl

/-- Witness for C8 at the unknown tool name `"frobnicate"`. -/
theorem c8_unknown_tool_witness :
    execute_tool "frobnicate" [] [("f", "c")] ⟨0, "", ""⟩ ⟨false, ""⟩ =
      ((false, some ("Unknown tool: " ++ "frobnicate")), [("f", "c")]) :=
  c8_unknown_tool.1 "frobnicate" [] [("f", "c")] ⟨0, "", ""⟩ ⟨false, ""⟩ (by decide)

/-- The extraction fold with any accumulator equals the spec's per-block
filter with sequential ids continuing from the accumulator length. -/
theorem toolCallFold_eq_filterMap (blocks : List (List Char)) (acc : List ToolCall) :
    blocks.foldl toolCallStep acc =
      acc ++ assignIdsFrom acc.length ((blocks.map String.mk).filterMap decodeBlockSpec) := by
  induction blocks generalizing acc with
  | nil => simp [assignIdsFrom]
  | cons b bs ih =>
    simp only [List.foldl_cons, List.map_cons, List.filterMap_cons]
    cases hj : json_loads (String.mk b) with
    | none => simp [toolCallStep, decodeBlockSpec, hj, ih]
    | some v =>
      cases v with
      | jnull => simp [toolCallStep, decodeBlockSpec, hj, ih]
      | jbool bb => simp [toolCallStep, decodeBlockSpec, hj, ih]
      | jnum s => simp [toolCallStep, decodeBlockSpec, hj, ih]
      | jstr s => simp [toolCallStep, decodeBlockSpec, hj, ih]
      | jarr xs => simp [toolCallStep, decodeBlockSpec, hj, ih]
      | jobj kvs =>
        by_cases hk : (jHasKey "tool" kvs && jHasKey "arguments" kvs) = true
        · simp only [toolCallStep, decodeBlockSpec, hj, hk, if_true, ih,
            List.length_append, List.length_cons, List.length_nil]
          simp [assignIdsFrom, List.append_assoc]
        · simp [toolCallStep, decodeBlockSpec, hj, hk, ih]

/-- C3: the tool-call decoder yields one invocation per fenced JSON block
exactly when the strict parse succeeds on an object carrying both `tool`
and `arguments` keys — a failing block is skipped while decoding of the
remaining blocks continues, and ids are assigned sequentially — and the
concrete round trip on a single `read_file` block yields one invocation
named `read_file` whose `arguments.filepath` is `"x.txt"`. -/
theorem c3_decoder_refinement :
    (∀ text : String,
      extract_tool_calls text =
        assignIdsFrom 0 (((jsonBlocksOf text.toList).map String.mk).filterMap decodeBlockSpec)) ∧
    extract_tool_calls
        "```json\n\x7b\"tool\":\"read_file\",\"arguments\":\x7b\"filepath\":\"x.txt\",\"reason\":\"r\"\x7d\x7d\n```" =
      [{ name := Json.jstr "read_file"
         arguments := Json.jobj [("filepath", Json.jstr "x.txt"), ("reason", Json.jstr "r")]
         id := "call_0" }] := by
  constructor
  · intro text
    unfold extract_tool_calls
    simpa using toolCallFold_eq_filterMap (jsonBlocksOf text.toList) []
  · rfl

/-- C4: switching persona regenerates the system prompt for the new
persona and clears the whole history, the regenerated prompt contains the
new persona's identifying text; switching verbosity regenerates the system
prompt but does not clear history (roles are unchanged and everything
after index 0 is untouched). -/
theorem c4_persona_switch (st : ClientState) (m' : ExpertMode)
    (hne : st.expert_mode ≠ m') :
    (switchExpert st m').conversation_history = [] ∧
    (switchExpert st m').system_prompt = get_system_prompt m' st.response_mode ∧
    List.IsInfix (personaIdentifier m').toList
      (switchExpert st m').system_prompt.toList ∧
    (∀ rm' : ResponseMode,
      (set_response_mode st rm').system_prompt = get_system_prompt st.expert_mode rm' ∧
      ((set_response_mode st rm').conversation_history).map Message.role =
        st.conversation_history.map Message.role ∧
      (set_response_mode st rm').conversation_history.drop 1 =
        st.conversation_history.drop 1 ∧
      ((set_response_mode st rm').conversation_history).head?.map Message.content =
        st.conversation_history.head?.map fun m =>
          if m.role = Role.system then get_system_prompt st.expert_mode rm'
          else m.content) := by
  refine ⟨rfl, rfl, ?_, ?_⟩
  · show List.IsInfix (personaIdentifier m').toList
      (get_system_prompt m' st.response_mode).toList
    cases m' <;> cases st.response_mode <;> decide
  · intro rm'
    refine ⟨rfl, ?_, ?_, ?_⟩ <;>
    · unfold set_response_mode
      cases st.conversation_history with
      | nil => rfl
      | cons m0 rest =>
        by_cases hr : m0.role = Role.system
        · simp [hr]
        · simp [hr]

/-- Witness for C4: a Linux-persona session with one user turn switched to
the Database persona. -/
theorem c4_persona_switch_witness :
    (switchExpert (add_user_message (initClient .linux .quick) "hello") .database).conversation_history = [] ∧
    (switchExpert (add_user_message (initClient .linux .quick) "hello") .database).system_prompt =
      get_system_prompt .database (add_user_message (initClient .linux .quick) "hello").response_mode ∧
    List.IsInfix (personaIdentifier ExpertMode.database).toList
      (switchExpert (add_user_message (initClient .linux .quick) "hello") .database).system_prompt.toList ∧
    (set_response_mode (add_user_message (initClient .linux .quick) "hello") .full).system_prompt =
      get_system_prompt (add_user_message (initClient .linux .quick) "hello").expert_mode .full ∧
    ((set_response_mode (add_user_message (initClient .linux .quick) "hello") .full).conversation_history).map Message.role =
      ((add_user_message (initClient .linux .quick) "hello").conversation_history).map Message.role ∧
    ((set_response_mode (add_user_message (initClient .linux .quick) "hello") .full).conversation_history).head?.map Message.content =
      ((add_user_message (initClient .linux .quick) "hello").conversation_history).head?.map
        (fun m =>
          if m.role = Role.system then
            get_system_prompt (add_user_message (initClient .linux .quick) "hello").expert_mode .full
          else m.content) :=
  have h := c4_persona_switch (add_user_message (initClient .linux .quick) "hello")
    .database (by decide)
  ⟨h.1, h.2.1, h.2.2.1, (h.2.2.2 .full).1, (h.2.2.2 .full).2.1, (h.2.2.2 .full).2.2.2⟩

/-! ### Helpers for the history invariant (C7) -/

/-- Appending a non-system message preserves the invariant. -/
theorem sysOnlyAtHead_append (h0 : List Message) (u : Message)
    (hh : sysOnlyAtHead h0) (hu : u.role ≠ Role.system) :
    sysOnlyAtHead (h0 ++ [u]) := by
  cases h0 with
  | nil => intro m hm; simp at hm
  | cons a t =>
    intro m hm
    simp only [List.cons_append, List.drop_succ_cons, List.drop_zero] at hm
    rcases List.mem_append.mp hm with h1 | h2
    · exact hh m (by simpa using h1)
    · simp only [List.mem_singleton] at h2
      subst h2; exact hu

/-- Every history-mutating operation preserves the invariant. -/
theorem sysOnlyAtHead_applyOp (st : ClientState) (op : HistOp)
    (h : sysOnlyAtHead st.conversation_history) :
    sysOnlyAtHead (applyOp st op).conversation_history := by
  cases op with
  | addSystem =>
    simp only [applyOp, add_system_message]
    cases hh : st.conversation_history with
    | nil => intro m hm; simp at hm
    | cons m0 rest =>
      rw [hh] at h
      by_cases hr : m0.role = Role.system
      · simpa [hr, hh] using h
      · simp only [hr, if_false]
        intro m hm
        simp only [List.drop_succ_cons, List.drop_zero] at hm
        rcases List.mem_cons.mp hm with h1 | h2
        · subst h1; exact hr
        · exact h m (by simpa using h2)
  | addUser c =>
    simp only [applyOp, add_user_message]
    exact sysOnlyAtHead_append _ _ h (by intro hc; cases hc)
  | addAssistant c tc =>
    simp only [applyOp, add_assistant_message]
    exact sysOnlyAtHead_append _ _ h (by intro hc; cases hc)
  | addToolResult i n r =>
    simp only [applyOp, add_tool_result]
    exact sysOnlyAtHead_append _ _ h (by intro hc; cases hc)
  | setExpert m =>
    simp only [applyOp, set_expert_mode]
    cases hh : st.conversation_history with
    | nil => intro m hm; simp at hm
    | cons m0 rest =>
      rw [hh] at h
      by_cases hr : m0.role = Role.system
      · simp only [hr, if_true]
        intro m hm
        exact h m (by simpa using hm)
      · simpa [hr] using h
  | setResponse rm =>
    simp only [applyOp, set_response_mode]
    cases hh : st.conversation_history with
    | nil => intro m hm; simp at hm
    | cons m0 rest =>
      rw [hh] at h
      by_cases hr : m0.role = Role.system
      · simp only [hr, if_true]
        intro m hm
        exact h m (by simpa using hm)
      · simpa [hr] using h
  | clear =>
    intro m hm; simp [applyOp, clear_history] at hm

/-- The invariant holds along any run of operations. -/
theorem sysOnlyAtHead_foldl (ops : List HistOp) (st : ClientState)
    (h : sysOnlyAtHead st.conversation_history) :
    sysOnlyAtHead (ops.foldl applyOp st).conversation_history := by
  induction ops generalizing st with
  | nil => exact h
  | cons op ops ih => exact ih _ (sysOnlyAtHead_applyOp st op h)

/-- The invariant bounds the number of system messages by one. -/
theorem countSystem_le_one (h : List Message) (hs : sysOnlyAtHead h) :
    countSystem h ≤ 1 := by
  cases h with
  | nil => simp [countSystem]
  | cons m0 t =>
    have ht : ∀ m ∈ t, m.role ≠ Role.system := fun m hm => hs m (by simpa using hm)
    have hft : t.filter (fun m => m.role == Role.system) = [] := by
      rw [List.filter_eq_nil_iff]
      intro a ha
      simpa using ht a ha
    by_cases hm0 : (m0.role == Role.system) = true
    · simp [countSystem, List.filter_cons, hm0, hft]
    · simp [countSystem, List.filter_cons, hm0, hft]

/-- Under the invariant a system message can only sit at index 0. -/
theorem sys_index_zero (h : List Message) (hs : sysOnlyAtHead h) :
    ∀ i (hi : i < h.length), (h.get ⟨i, hi⟩).role = Role.system → i = 0 := by
  intro i hi hr
  cases h with
  | nil => simp at hi
  | cons m0 t =>
    cases i with
    | zero => rfl
    | succ j =>
      exfalso
      have hj : j < t.length := by simpa using hi
      have hmem : t.get ⟨j, hj⟩ ∈ t := List.get_mem t j hj
      exact hs _ (by simp only [List.drop_succ_cons, List.drop_zero]; exact hmem) hr

/-- C7: after any sequence of history-mutating operations from a fresh
session, the history holds at most one system message, and any system
message sits at index 0. -/
theorem c7_system_message_invariant (m : ExpertMode) (rm : ResponseMode)
    (ops : List HistOp) :
    countSystem (runOps m rm ops).conversation_history ≤ 1 ∧
    ∀ i (hi : i < (runOps m rm ops).conversation_history.length),
      ((runOps m rm ops).conversation_history.get ⟨i, hi⟩).role = Role.system →
        i = 0 := by
  have hinv : sysOnlyAtHead (runOps m rm ops).conversation_history :=
    sysOnlyAtHead_foldl ops (initClient m rm) (by intro x hx; simp [initClient] at hx)
  exact ⟨countSystem_le_one _ hinv, sys_index_zero _ hinv⟩

/-- Witness for C7 at a concrete run: after adding the system message and
a user turn the history holds one system message, and the index conclusion
is discharged at index 0, which carries the system message. -/
theorem c7_system_message_invariant_witness :
    countSystem (runOps ExpertMode.linux ResponseMode.quick
        [HistOp.addSystem, HistOp.addUser "hi"]).conversation_history ≤ 1 ∧
    (0 : Nat) < (runOps ExpertMode.linux ResponseMode.quick
        [HistOp.addSystem, HistOp.addUser "hi"]).conversation_history.length ∧
    (0 : Nat) = 0 :=
  ⟨(c7_system_message_invariant ExpertMode.linux ResponseMode.quick
      [HistOp.addSystem, HistOp.addUser "hi"]).1,
    by decide,
    (c7_system_message_invariant ExpertMode.linux ResponseMode.quick
      [HistOp.addSystem, HistOp.addUser "hi"]).2 0 (by decide) (by decide)⟩

/-! ### C2: single clean fenced bash block -/

/-- C2: for a text whose fenced-block scan finds exactly one bash block
cleaning to a single command line, with no backtick-span or prefix-pattern
candidates elsewhere and the line passing the likely-command filter,
`parse` returns exactly one candidate: the trimmed line, at confidence
0.90, from the `code_block` pass. -/
theorem c2_single_bash_block (text : String) (s e : Nat) (body cmd : List Char)
    (hscan : scanFences bashTags true text.toList = [(s, e, body)])
    (hclean : cleanBlockLines (pyStripL body) = [cmd])
    (hbt : extract_from_backticks text.toList = [])
    (hkw : extract_from_patterns text.toList = [])
    (hlikely : is_likely_command (String.mk cmd) = true) :
    (parse text 3).map (fun c => (c.command, c.confidence, c.source)) =
      [(String.mk cmd, (9 : Rat) / 10, "code_block")] := by
  have hcb : extract_from_code_blocks text.toList =
      [{ command := String.mk cmd
         explanation := (find_explanation_near text.toList s e).getD "Command from code block"
         confidence := 9 / 10
         source := "code_block" }] := by
    unfold extract_from_code_blocks
    rw [hscan]
    simp [hclean]
  unfold parse
  simp only [hcb, hbt, hkw, List.append_nil]
  simp [deduplicate, dedupInsert, sortByConfDesc, insertByConf, hlikely]

/-- Witness for C2 at a concrete response text. -/
theorem c2_single_bash_block_witness :
    (parse "Here is it\n```bash\nls -la\n```\n" 3).map
      (fun c => (c.command, c.confidence, c.source)) =
    [("ls -la", (9 : Rat) / 10, "code_block")] :=
  c2_single_bash_block "Here is it\n```bash\nls -la\n```\n" 11 29
    "ls -la".toList "ls -la".toList (by decide) (by decide) (by decide)
    (by decide) (by decide)

/-! ### Helpers for the cancellation claim (C1) -/

/-- When the flag goes up at fragment `k` within the stream, the loop
yields the first `k - i` fragments as text and then the single
cancellation event, reporting a cancelled turn. -/
theorem streamLoop_cancelled (cs : List String) (k : Nat) :
    ∀ (i : Nat) (acc : String), i ≤ k → k - i < cs.length →
    (streamLoop cs i (some k) acc).1 =
      (cs.take (k - i)).map Event.text ++ [Event.cancelledEv] ∧
    (streamLoop cs i (some k) acc).2.2 = true := by
  induction cs with
  | nil => intro i acc _ hlt; simp at hlt
  | cons c cs ih =>
    intro i acc hik hlt
    by_cases hk : k ≤ i
    · have hkeq : k = i := le_antisymm hk hik
      subst hkeq
      have hflag : flagAt (some k) k = true := by simp [flagAt]
      simp [streamLoop, hflag]
    · have hflag : flagAt (some k) i = false := by
        simp only [flagAt, decide_eq_false_iff_not]
        omega
      have hlt' : k - (i + 1) < cs.length := by
        simp only [List.length_cons] at hlt
        omega
      have ihh := ih (i + 1) (acc ++ c) (by omega) hlt'
      have hki : k - i = (k - (i + 1)) + 1 := by omega
      constructor
      · simp only [streamLoop, hflag, Bool.false_eq_true, if_false, hki,
          List.take_succ_cons, List.map_cons, List.cons_append]
        rw [ihh.1]
      · simp only [streamLoop, hflag, Bool.false_eq_true, if_false]
        exact ihh.2

/-- The state returned by `chat_with_tools` is the input state after
`add_system_message`, in both the cancelled and the completed branch. -/
theorem chat_with_tools_fst (st : ClientState) (chunks : List String)
    (cancelAt : Option Nat) :
    (chat_with_tools st chunks cancelAt).1 = add_system_message st := by
  simp only [chat_with_tools]
  split <;> rfl

/-- `add_system_message` acts on the history as `insertSysList`. -/
theorem add_system_message_history (st : ClientState) :
    (add_system_message st).conversation_history =
      insertSysList st.system_prompt st.conversation_history := by
  unfold add_system_message insertSysList
  cases hh : st.conversation_history with
  | nil => simp
  | cons m0 rest => by_cases hr : m0.role = Role.system <;> simp [hr, hh]

/-- Inserting the system message commutes with the trailing user message. -/
theorem insertSysList_concat (sp : String) (h0 : List Message) (u : Message)
    (hu : u.role = Role.user) :
    insertSysList sp (h0 ++ [u]) = insertSysList sp h0 ++ [u] := by
  cases h0 with
  | nil => simp [insertSysList, hu]
  | cons m0 t => by_cases hr : m0.role = Role.system <;> simp [insertSysList, hr]

/-- `add_user_message` appends one user-role message and leaves the system
prompt alone. -/
theorem add_user_message_decomp (st : ClientState) (input : String) :
    ∃ u : Message,
      (add_user_message st input).conversation_history =
        st.conversation_history ++ [u] ∧
      u.role = Role.user ∧
      (add_user_message st input).system_prompt = st.system_prompt :=
  ⟨_, rfl, rfl, rfl⟩

/-- C1 (counterexample): starting a turn on an empty history and raising
the cancellation flag at the first fragment leaves a history whose length
differs from the pre-turn history — the rollback pops the user message,
but the system message inserted at the start of the turn remains, so the
history is not "as it was before the turn began". -/
theorem c1_counterexample :
    ((processTurn (initClient .linux .quick) "hi" ["a", "b"] (some 0)).conversation_history).length ≠
      ((initClient ExpertMode.linux ResponseMode.quick).conversation_history).length := by
  decide

/-- C1 (amended): raising the cancellation flag at fragment `k` of a
longer stream makes the turn yield the first `k` fragments and then a
single cancellation signal — no further text — and afterwards the
just-appended user message is absent: the history is the pre-turn history
with the system message inserted at index 0 when it was absent (hence
exactly the pre-turn history whenever it already began with one). -/
theorem c1_cancel_amended (st : ClientState) (input : String)
    (chunks : List String) (k : Nat) (hk : k < chunks.length) :
    (chat_with_tools (add_user_message st input) chunks (some k)).2 =
      (chunks.take k).map Event.text ++ [Event.cancelledEv] ∧
    (processTurn st input chunks (some k)).conversation_history =
      (add_system_message st).conversation_history := by
  have hs := streamLoop_cancelled chunks k 0 "" (Nat.zero_le k) (by simpa using hk)
  have hevs : (chat_with_tools (add_user_message st input) chunks (some k)).2 =
      (chunks.take k).map Event.text ++ [Event.cancelledEv] := by
    simp only [chat_with_tools, hs.2, if_true]
    simpa using hs.1
  refine ⟨hevs, ?_⟩
  have hany : ((chat_with_tools (add_user_message st input) chunks (some k)).2).any
      isCancelEv = true := by
    rw [hevs]; simp [isCancelEv]
  simp only [processTurn, hany, if_true]
  rw [chat_with_tools_fst]
  obtain ⟨u, huh, hu, hus⟩ := add_user_message_decomp st input
  rw [add_system_message_history, huh, hus, insertSysList_concat _ _ _ hu,
    List.getLast?_concat]
  simp [hu, List.dropLast_concat, add_system_message_history]

/-- Witness for C1 (amended) at a concrete session and stream. -/
theorem c1_cancel_amended_witness :
    (chat_with_tools (add_user_message (initClient .linux .quick) "hi") ["a", "b"]
        (some 1)).2 =
      (["a", "b"].take 1).map Event.text ++ [Event.cancelledEv] ∧
    (processTurn (initClient .linux .quick) "hi" ["a", "b"] (some 1)).conversation_history =
      (add_system_message (initClient .linux .quick)).conversation_history :=
  c1_cancel_amended (initClient .linux .quick) "hi" ["a", "b"] 1 (by decide)

end Agent
